import Mathlib

/-!
# Settings controller: the reconcile pass

A shallow embedding of `controllers/settings_controller.go`
(`SettingsReconciler.Reconcile`) and of the properties stated about it.

* Go strings are `String`, `time.Now().UTC()` is an input `now : Time`.
* The API client embedded in the reconciler is a record of operations over a
  world state `W` that is passed explicitly; each operation returns its Go
  result together with the next world.
* `Reconcile` returns, besides the Go results `(ctrl.Result, error)`, the next
  world, the API calls it issued, and the working copy `s` / the flag
  `conditionChanged` as they stand after the condition loop.
* Logging has no effect on any of these and is left out.
-/

namespace SettingsController

/-! ## Data model -/

/-- Go `metav1.ConditionStatus`, a string type. -/
abbrev ConditionStatus := String

/-- Go `metav1.ConditionTrue`. -/
def ConditionTrue : ConditionStatus := "True"

/-- Go `metav1.ConditionFalse`. -/
def ConditionFalse : ConditionStatus := "False"

/-- Go `metav1.ConditionUnknown`. -/
def ConditionUnknown : ConditionStatus := "Unknown"

/-- Go `metav1.Time`, as a number of time units since the epoch. -/
abbrev Time := Nat

/-- Go `metav1.Condition`; the Go field `Type` is written `Type_`. -/
structure Condition where
  Type_ : String
  Status : ConditionStatus
  ObservedGeneration : Nat := 0
  LastTransitionTime : Time
  Reason : String
  Message : String
deriving DecidableEq, Repr

/-! ## The condition loop (lines 99-114) -/

/-- The loop `for i, condition := range s.Status.Conditions` of lines 101-110,
run over the not yet visited entries with the current value of `conditionNew`.
It returns the entries as the loop leaves them, `conditionNew` and
`conditionChanged`. The `break` of line 107 is the branch that does not recurse. -/
def conditionLoop (quotaCondition : Condition) :
    List Condition → Bool → List Condition × Bool × Bool
  | [], conditionNew => ([], conditionNew, false)
  | condition :: rest, conditionNew =>
    if condition.Type_ = quotaCondition.Type_ then
      -- conditionNew = false
      if condition.Status ≠ quotaCondition.Status ∨ condition.Reason ≠ quotaCondition.Reason then
        -- s.Status.Conditions[i] = quotaCondition; conditionChanged = true; break
        (quotaCondition :: rest, false, true)
      else
        let r := conditionLoop quotaCondition rest false
        (condition :: r.1, r.2.1, r.2.2)
    else
      let r := conditionLoop quotaCondition rest conditionNew
      (condition :: r.1, r.2.1, r.2.2)

/-- Lines 74-75 and 101-114: the merge of `quotaCondition` into the condition
list, with `conditionNew := true`, `conditionChanged := false` at the start, the
loop, and the append of lines 111-114. Returns the list and `conditionChanged`. -/
def mergeCondition (conditions : List Condition) (quotaCondition : Condition) :
    List Condition × Bool :=
  let r := conditionLoop quotaCondition conditions true
  if r.2.1 then (r.1 ++ [quotaCondition], true) else (r.1, r.2.2)

/-- At most one entry per condition type. -/
def UniqueTypes (conditions : List Condition) : Prop :=
  (conditions.map (fun c => c.Type_)).Nodup

instance (conditions : List Condition) : Decidable (UniqueTypes conditions) := by
  unfold UniqueTypes; infer_instance

/-- A sequence of merge calls, left to right, from a starting list. -/
def mergeAll (start : List Condition) (incoming : List Condition) : List Condition :=
  incoming.foldl (fun acc c => (mergeCondition acc c).1) start


/-! ## Objects and API client -/

/-- A Go `error` returned by the API client, as `errors.IsNotFound` reads it: the
status reason and the HTTP code of the status it carries, and the text. An error
that carries no status has the reason `""` (`metav1.StatusReasonUnknown`) and
the code 0. -/
structure APIError where
  Reason : String
  Code : Nat
  Message : String
deriving DecidableEq, Repr

/-- Go `metav1.StatusReasonNotFound`. -/
def StatusReasonNotFound : String := "NotFound"

/-- Go `http.StatusNotFound`. -/
def StatusNotFound : Nat := 404

/-- Go `knownReasons` of `k8s.io/apimachinery/pkg/api/errors`: the status reasons
the package has a predicate for. -/
def knownReasons : List String :=
  ["Unauthorized", "Forbidden", "NotFound", "AlreadyExists", "Conflict", "Gone", "Invalid",
    "ServerTimeout", "Timeout", "TooManyRequests", "BadRequest", "MethodNotAllowed",
    "NotAcceptable", "RequestEntityTooLarge", "UnsupportedMediaType", "InternalError",
    "Expired", "ServiceUnavailable"]

/-- Go `errors.IsNotFound`: the reason is `metav1.StatusReasonNotFound`, or the
reason is not a known one and the code is 404. -/
def IsNotFound (err : APIError) : Bool :=
  if err.Reason = StatusReasonNotFound then true
  else if err.Reason ∉ knownReasons ∧ err.Code = StatusNotFound then true
  else false

/-- Go `types.NamespacedName`. -/
structure NamespacedName where
  Namespace : String
  Name : String
deriving DecidableEq, Repr

/-- Go `ctrl.Request` of the kcp fork: the logical cluster and the object key. -/
structure Request where
  ClusterName : String
  NamespacedName : NamespacedName
deriving DecidableEq, Repr

/-- Go `ctrl.Result`. -/
structure Result where
  Requeue : Bool := false
  RequeueAfter : Nat := 0
deriving DecidableEq, Repr

/-- Go `context.Context`, reduced to the logical cluster it carries, if any. -/
structure Context where
  Cluster : Option String
deriving DecidableEq, Repr

/-- Go `logicalcluster.WithCluster(ctx, logicalcluster.New(name))`. -/
def WithCluster (_ctx : Context) (name : String) : Context := { Cluster := some name }

/-- Go `settingsv1alpha1.SettingsStatus`: the ordered condition list. -/
structure SettingsStatus where
  Conditions : List Condition
deriving DecidableEq, Repr

/-- Go `settingsv1alpha1.Settings` (its declaration is in `api/v1alpha1`): the
identity of the object (logical cluster, namespace, name), the version the API
server gave it (`ObjectMeta.ResourceVersion`, kept as a number) and its status.
The spec of the object is not read by the controller. -/
structure Settings where
  ClusterName : String
  Namespace : String
  Name : String
  ResourceVersion : Nat
  Status : SettingsStatus
deriving DecidableEq, Repr

/-- Go `settingsv1alpha1.SettingsList`. -/
structure SettingsList where
  Items : List Settings
deriving DecidableEq, Repr

/-- Go `resource.Quantity`, kept as its text. -/
abbrev Quantity := String

/-- Go `resource.MustParse`. -/
def MustParse (str : String) : Quantity := str

/-- Go `corev1.ResourceQuotaSpec`: the map `Hard` as an association list. -/
structure ResourceQuotaSpec where
  Hard : List (String × Quantity)
deriving DecidableEq, Repr

/-- Go `corev1.ResourceQuota`, with the logical cluster it is stored in. -/
structure ResourceQuota where
  ClusterName : String := ""
  Namespace : String := ""
  Name : String := ""
  Spec : ResourceQuotaSpec := { Hard := [] }
deriving DecidableEq, Repr

/-- Go `controllerutil.OperationResult`, a string type. -/
abbrev OperationResult := String

/-- Go `controllerutil.OperationResultNone`. -/
def OperationResultNone : OperationResult := "unchanged"

/-- Go `controllerutil.OperationResultCreated`. -/
def OperationResultCreated : OperationResult := "created"

/-- Go `controllerutil.OperationResultUpdated`. -/
def OperationResultUpdated : OperationResult := "updated"

/-- Go `client.Patch` as the merge-from patches of controller-runtime build it:
the base object the difference is taken from, and the option `OptimisticLock`
of `client.MergeFromOptions`, under which the patch also carries the version of
the base as a precondition. -/
structure Patch where
  base : Settings
  OptimisticLock : Bool
deriving DecidableEq, Repr

/-- Go `client.MergeFrom(obj)`: the base object and no option. -/
def MergeFrom (obj : Settings) : Patch := { base := obj, OptimisticLock := false }

/-- Go `client.MergeFromWithOptions(obj, client.MergeFromWithOptimisticLock{})`,
which `Reconcile` does not call. -/
def MergeFromWithOptimisticLock (obj : Settings) : Patch :=
  { base := obj, OptimisticLock := true }

/-- The API operations `Reconcile` calls on `r.Client`, over a world `W`:
`r.Get`, `cutil.CreateOrPatch(ctx, r.Client, obj, f)`, `r.Status().Patch` and
`r.List`. Each takes the world before the call and returns the world after. -/
structure Client (W : Type) where
  Get : Context → NamespacedName → W → Except APIError Settings × W
  CreateOrPatch : Context → ResourceQuota → (ResourceQuota → ResourceQuota) → W →
    (OperationResult × Option APIError) × W
  StatusPatch : Context → Settings → Patch → W → Option APIError × W
  List : Context → W → Except APIError SettingsList × W

/-- An API call issued by `Reconcile`, with its arguments. -/
inductive Call where
  | List
  | Get (ctx : Context) (key : NamespacedName)
  | CreateOrPatch (ctx : Context) (obj : ResourceQuota)
  | StatusPatch (ctx : Context) (obj : Settings) (patch : Patch)
deriving DecidableEq, Repr

/-- A call that writes: the create-or-patch of the dependent resource or the
status patch. -/
def Call.isWrite : Call → Bool
  | .List => false
  | .Get _ _ => false
  | .CreateOrPatch _ _ => true
  | .StatusPatch _ _ _ => true

/-- A call that patches the status of the Configuration Object. -/
def Call.isStatusPatch : Call → Bool
  | .StatusPatch _ _ _ => true
  | _ => false

/-- What one invocation of `Reconcile` leaves: the Go results `result`, `err`;
the world after; the calls issued, in order; and, when the object was fetched,
the outcome `operationResult` of the create-or-patch (logged at line 97), the
working copy `s` and `conditionChanged` after the condition loop. -/
structure Run (W : Type) where
  result : Result
  err : Option APIError
  world : W
  calls : List Call
  operationResult : Option OperationResult
  s : Option Settings
  conditionChanged : Bool

/-! ## Reconcile (lines 35-130) -/

/-- Lines 64-72 and 91-96: the condition built from the outcome `rtnErr` of the
create-or-patch, stamped with the current time. -/
def quotaCondition (now : Time) (rtnErr : Option APIError) : Condition :=
  let quotaCondition : Condition :=
    { Type_ := "QuotaReady"
      Status := ConditionTrue
      LastTransitionTime := now
      Reason := "QuotaCreated"
      Message := "ResourceQuota pipeline-service has successfully been created in kcp-system namespace" }
  if rtnErr ≠ none then
    { quotaCondition with
      Status := ConditionFalse
      Reason := "Error"
      Message := "Unable to create or patch the resourceQuota" }
  else quotaCondition

/-- Lines 78-80: `wsQuota` before the create-or-patch. -/
def wsQuota : ResourceQuota := { Namespace := "kcp-system", Name := "quota" }

/-- Lines 83-90: the function given to `CreateOrPatch`, which sets the spec. -/
def mutateQuota (wsQuota : ResourceQuota) : ResourceQuota :=
  { wsQuota with Spec := { Hard := [("count/namespace", MustParse "10")] } }

/-- Go `SettingsReconciler.Reconcile`. -/
def Reconcile {W : Type} (r : Client W) (now : Time) (ctx : Context) (req : Request) (w : W) :
    Run W :=
  match r.List ctx w with
  | (.error err, w) =>
    { result := {}, err := some err, world := w, calls := [.List], operationResult := none,
      s := none,
      conditionChanged := false }
  | (.ok _allSettings, w) =>
    let ctx := WithCluster ctx req.ClusterName
    match r.Get ctx req.NamespacedName w with
    | (.error err, w) =>
      if IsNotFound err then
        { result := {}, err := none, world := w, calls := [.List, .Get ctx req.NamespacedName],
          operationResult := none, s := none, conditionChanged := false }
      else
        { result := {}, err := some err, world := w,
          calls := [.List, .Get ctx req.NamespacedName], operationResult := none, s := none,
          conditionChanged := false }
    | (.ok s, w) =>
      let scopy := s
      match r.CreateOrPatch ctx wsQuota mutateQuota w with
      | ((operationResult, rtnErr), w) =>
        let quotaCondition := quotaCondition now rtnErr
        let merged := mergeCondition s.Status.Conditions quotaCondition
        let s : Settings := { s with Status := { Conditions := merged.1 } }
        let conditionChanged := merged.2
        if conditionChanged then
          let patch := MergeFrom scopy
          match r.StatusPatch ctx s patch w with
          | (some err, w) =>
            { result := {}, err := if rtnErr = none then some err else rtnErr, world := w,
              calls := [.List, .Get ctx req.NamespacedName, .CreateOrPatch ctx wsQuota,
                .StatusPatch ctx s patch],
              operationResult := some operationResult, s := some s,
              conditionChanged := conditionChanged }
          | (none, w) =>
            { result := {}, err := rtnErr, world := w,
              calls := [.List, .Get ctx req.NamespacedName, .CreateOrPatch ctx wsQuota,
                .StatusPatch ctx s patch],
              operationResult := some operationResult, s := some s,
              conditionChanged := conditionChanged }
        else
          { result := {}, err := rtnErr, world := w,
            calls := [.List, .Get ctx req.NamespacedName, .CreateOrPatch ctx wsQuota],
            operationResult := some operationResult, s := some s,
              conditionChanged := conditionChanged }

/-! ## The API server and the idempotent applier -/

/-- Modelled from the spec: the store behind the API client abstraction
(sections 3 and 6), which is not part of `controllers/settings_controller.go`.
It holds the Configuration Objects of all tenant scopes and the dependent
resources, each object carrying its scope. No actor other than the caller
changes it. -/
structure World where
  settings : List Settings
  quotas : List ResourceQuota
deriving DecidableEq, Repr

/-- The tenant scope an API call is addressed to. -/
def scopeOf (ctx : Context) : String := ctx.Cluster.getD ""

/-- Identity of a Configuration Object: tenant scope, namespace, name. -/
def settingsAt (scope : String) (key : NamespacedName) (s : Settings) : Bool :=
  s.ClusterName == scope && s.Namespace == key.Namespace && s.Name == key.Name

/-- Identity of a dependent resource: tenant scope, namespace, name. -/
def quotaAt (scope : String) (obj : ResourceQuota) (q : ResourceQuota) : Bool :=
  q.ClusterName == scope && q.Namespace == obj.Namespace && q.Name == obj.Name

/-- Replace in place the first entry that satisfies `p`. -/
def replaceFirst {α : Type} (p : α → Bool) (new : α) : List α → List α
  | [] => []
  | x :: xs => if p x then new :: xs else x :: replaceFirst p new xs

/-- The not-found signal of the API client (section 6). -/
def notFound : APIError := { Reason := "NotFound", Code := 404, Message := "not found" }

/-- The conflict signal of the API server (section 7). -/
def conflict : APIError :=
  { Reason := "Conflict", Code := 409, Message := "the object has been modified" }

/-- Modelled from the spec: `list` of section 6, which the controller calls
before a tenant scope is set: all Configuration Objects of all scopes. -/
def apiList (_ctx : Context) (w : World) : Except APIError SettingsList × World :=
  (.ok { Items := w.settings }, w)

/-- Modelled from the spec: `get` of section 6, "returning a not-found signal
distinguishable from other failures". -/
def apiGet (ctx : Context) (key : NamespacedName) (w : World) :
    Except APIError Settings × World :=
  match w.settings.find? (settingsAt (scopeOf ctx) key) with
  | some s => (.ok s, w)
  | none => (.error notFound, w)

/-- Modelled from the spec: `applyDesired` of section 4.2, which in the source is
the library call `cutil.CreateOrPatch`: "fetch-or-initialize the resource by
identity; compute desired spec via `desiredSpecFn`; compare to observed spec; if
identical, result = unchanged, no write; if resource absent, create with desired
spec, result = created; if present and differing, replace spec in place, result
= updated." -/
def applyDesired (ctx : Context) (obj : ResourceQuota)
    (desiredSpecFn : ResourceQuota → ResourceQuota) (w : World) :
    (OperationResult × Option APIError) × World :=
  match w.quotas.find? (quotaAt (scopeOf ctx) obj) with
  | none =>
    let created := desiredSpecFn { obj with ClusterName := scopeOf ctx }
    ((OperationResultCreated, none), { w with quotas := w.quotas ++ [created] })
  | some observed =>
    let desired := desiredSpecFn observed
    if desired = observed then ((OperationResultNone, none), w)
    else
      ((OperationResultUpdated, none),
        { w with quotas := replaceFirst (quotaAt (scopeOf ctx) obj) desired w.quotas })

/-- Modelled from the spec: `patchStatus` of section 6 as used in step 7 of
section 4.1: "patch only the status sub-resource using the ... snapshot as the
base for a minimal diff". A patch that carries the version of its base as a
precondition fails with a conflict when the stored object has another version.
Otherwise an empty diff writes nothing, and a diff makes the status of the stored
object the status of `obj`, under a new version. -/
def patchStatus (ctx : Context) (obj : Settings) (patch : Patch) (w : World) :
    Option APIError × World :=
  let key : NamespacedName := { Namespace := obj.Namespace, Name := obj.Name }
  match w.settings.find? (settingsAt (scopeOf ctx) key) with
  | none => (some notFound, w)
  | some stored =>
    if patch.OptimisticLock = true ∧ patch.base.ResourceVersion ≠ stored.ResourceVersion then
      (some conflict, w)
    else if obj.Status = patch.base.Status then (none, w)
    else
      let patched : Settings :=
        { stored with Status := obj.Status, ResourceVersion := stored.ResourceVersion + 1 }
      (none, { w with settings := replaceFirst (settingsAt (scopeOf ctx) key) patched w.settings })

/-- Modelled from the spec: the API client abstraction of section 6 over `World`. -/
def apiServer : Client World :=
  { Get := apiGet, CreateOrPatch := applyDesired, StatusPatch := patchStatus, List := apiList }

/-- Another actor writes the condition list of a stored Configuration Object,
which gets a new version. -/
def externalStatusWrite (scope : String) (key : NamespacedName) (conditions : List Condition)
    (w : World) : World :=
  match w.settings.find? (settingsAt scope key) with
  | none => w
  | some stored =>
    let written : Settings :=
      { stored with Status := { Conditions := conditions },
                    ResourceVersion := stored.ResourceVersion + 1 }
    { w with settings := replaceFirst (settingsAt scope key) written w.settings }

/-- The modelled server with a change `ext` made by another actor right after the
fetch: `Get` returns the object as stored, and the world it leaves is changed. -/
def apiServerWith (ext : World → World) : Client World :=
  { Get := fun ctx key w => ((apiGet ctx key w).1, ext w)
    CreateOrPatch := applyDesired, StatusPatch := patchStatus, List := apiList }

/-- A client whose calls return fixed outcomes and leave the world (a call
counter) advanced by one: used to run `Reconcile` on chosen outcomes. -/
def fixedClient (list : Except APIError SettingsList) (get : Except APIError Settings)
    (apply : OperationResult × Option APIError) (patch : Option APIError) : Client Nat :=
  { Get := fun _ _ n => (get, n + 1)
    CreateOrPatch := fun _ _ _ n => (apply, n + 1)
    StatusPatch := fun _ _ _ n => (patch, n + 1)
    List := fun _ n => (list, n + 1) }

/-! ## Concrete inputs -/

/-- A condition list entry `QuotaReady` / `True` / `QuotaCreated`, written at time 1. -/
def readyEntry : Condition :=
  { Type_ := "QuotaReady", Status := ConditionTrue, LastTransitionTime := 1,
    Reason := "QuotaCreated", Message := "created earlier" }

/-- A condition list entry `QuotaReady` / `False` / `Error`, written at time 2. -/
def errorEntry : Condition :=
  { Type_ := "QuotaReady", Status := ConditionFalse, LastTransitionTime := 2,
    Reason := "Error", Message := "failed earlier" }

/-- A condition list entry of another type. -/
def otherEntry : Condition :=
  { Type_ := "Available", Status := ConditionTrue, LastTransitionTime := 3,
    Reason := "Probed", Message := "" }

/-- A Configuration Object `ws1/default/settings` with one condition of another type. -/
def sampleSettings : Settings :=
  { ClusterName := "ws1", Namespace := "default", Name := "settings", ResourceVersion := 1,
    Status := { Conditions := [otherEntry] } }

/-- The reconcile request for `sampleSettings`. -/
def sampleRequest : Request :=
  { ClusterName := "ws1", NamespacedName := { Namespace := "default", Name := "settings" } }

/-- The context `Reconcile` is entered with: no logical cluster yet. -/
def background : Context := { Cluster := none }

/-- A world holding `sampleSettings` and no dependent resource. -/
def sampleWorld : World := { settings := [sampleSettings], quotas := [] }

/-- A condition another actor writes while an invocation runs. -/
def degradedEntry : Condition :=
  { Type_ := "Available", Status := ConditionFalse, LastTransitionTime := 4,
    Reason := "ProbeFailed", Message := "written by another controller" }

/-- Another actor replaces the conditions of `sampleSettings` by `[degradedEntry]`. -/
def sampleExternalWrite (w : World) : World :=
  externalStatusWrite "ws1" { Namespace := "default", Name := "settings" } [degradedEntry] w

/-- A failure of the API server other than not-found. -/
def unavailable : APIError :=
  { Reason := "ServiceUnavailable", Code := 503, Message := "server unavailable" }

/-- A status of code 404 whose reason is not a known one. -/
def bareNotFound : APIError := { Reason := "", Code := 404, Message := "404 page not found" }

/-- A status of code 404 whose reason is a known one other than not-found. -/
def goneNotFound : APIError := { Reason := "Gone", Code := 404, Message := "gone" }

/-! ## Lemmas on the condition loop -/

/-- The loop keeps the type of every position. -/
theorem conditionLoop_types (q : Condition) (l : List Condition) (n : Bool) :
    (conditionLoop q l n).1.map (fun c => c.Type_) = l.map (fun c => c.Type_) := by
  induction l generalizing n with
  | nil => simp [conditionLoop]
  | cons x xs ih =>
    unfold conditionLoop
    split_ifs with h1 h2
    · simp [h1]
    · simp [ih]
    · simp [ih]

/-- With no entry of the incoming type the loop changes nothing. -/
theorem conditionLoop_no_match (q : Condition) (l : List Condition) (n : Bool)
    (h : ∀ e ∈ l, e.Type_ ≠ q.Type_) : conditionLoop q l n = (l, n, false) := by
  induction l generalizing n with
  | nil => simp [conditionLoop]
  | cons x xs ih =>
    have hx : x.Type_ ≠ q.Type_ := h x (List.mem_cons_self _ _)
    have hxs : ∀ e ∈ xs, e.Type_ ≠ q.Type_ := fun e he => h e (List.mem_cons_of_mem _ he)
    unfold conditionLoop
    simp [hx, ih n hxs]

/-- Once an entry of the incoming type was seen, `conditionNew` is false. -/
theorem conditionLoop_new_false (q : Condition) (l : List Condition) :
    (conditionLoop q l false).2.1 = false := by
  induction l with
  | nil => simp [conditionLoop]
  | cons x xs ih =>
    unfold conditionLoop
    split_ifs <;> simp [ih]

/-- An entry of the incoming type makes `conditionNew` false. -/
theorem conditionLoop_new_of_match (q : Condition) (l : List Condition) (n : Bool)
    (h : ∃ e ∈ l, e.Type_ = q.Type_) : (conditionLoop q l n).2.1 = false := by
  induction l generalizing n with
  | nil => simp at h
  | cons x xs ih =>
    unfold conditionLoop
    split_ifs with h1 h2
    · rfl
    · exact conditionLoop_new_false q xs
    · obtain ⟨e, he, het⟩ := h
      rcases List.mem_cons.1 he with rfl | he
      · exact absurd het h1
      · exact ih n ⟨e, he, het⟩

/-- When every entry of the incoming type has the incoming status and reason the
loop leaves the list as it is and `conditionChanged` false. -/
theorem conditionLoop_all_equal (q : Condition) (l : List Condition) (n : Bool)
    (h : ∀ e ∈ l, e.Type_ = q.Type_ → e.Status = q.Status ∧ e.Reason = q.Reason) :
    (conditionLoop q l n).1 = l ∧ (conditionLoop q l n).2.2 = false := by
  induction l generalizing n with
  | nil => simp [conditionLoop]
  | cons x xs ih =>
    have hxs : ∀ e ∈ xs, e.Type_ = q.Type_ → e.Status = q.Status ∧ e.Reason = q.Reason :=
      fun e he => h e (List.mem_cons_of_mem _ he)
    unfold conditionLoop
    split_ifs with h1 h2
    · have := h x (List.mem_cons_self _ _) h1
      rcases h2 with h2 | h2
      · exact absurd this.1 h2
      · exact absurd this.2 h2
    · exact ⟨by simp [(ih false hxs).1], (ih false hxs).2⟩
    · exact ⟨by simp [(ih n hxs).1], (ih n hxs).2⟩

/-- When some entry of the incoming type differs in status or reason, the loop
replaces one such entry, at its position, and sets `conditionChanged`. -/
theorem conditionLoop_differs (q : Condition) (l : List Condition) (n : Bool)
    (h : ∃ e ∈ l, e.Type_ = q.Type_ ∧ (e.Status ≠ q.Status ∨ e.Reason ≠ q.Reason)) :
    (conditionLoop q l n).2.2 = true ∧
    ∃ i : Nat, (∃ e : Condition, l[i]? = some e ∧ e.Type_ = q.Type_ ∧
        (e.Status ≠ q.Status ∨ e.Reason ≠ q.Reason)) ∧
      (conditionLoop q l n).1 = l.set i q := by
  induction l generalizing n with
  | nil => simp at h
  | cons x xs ih =>
    unfold conditionLoop
    split_ifs with h1 h2
    · exact ⟨rfl, 0, ⟨x, by simp, h1, h2⟩, by simp⟩
    · have hxs : ∃ e ∈ xs, e.Type_ = q.Type_ ∧ (e.Status ≠ q.Status ∨ e.Reason ≠ q.Reason) := by
        obtain ⟨e, he, het, hed⟩ := h
        rcases List.mem_cons.1 he with rfl | he
        · exact absurd hed h2
        · exact ⟨e, he, het, hed⟩
      obtain ⟨hc, i, hi, hset⟩ := ih false hxs
      exact ⟨hc, i + 1, by simpa using hi, by simp [hset]⟩
    · have hxs : ∃ e ∈ xs, e.Type_ = q.Type_ ∧ (e.Status ≠ q.Status ∨ e.Reason ≠ q.Reason) := by
        obtain ⟨e, he, het, hed⟩ := h
        rcases List.mem_cons.1 he with rfl | he
        · exact absurd het h1
        · exact ⟨e, he, het, hed⟩
      obtain ⟨hc, i, hi, hset⟩ := ih n hxs
      exact ⟨hc, i + 1, by simpa using hi, by simp [hset]⟩

/-- The types of the merged list: those of the list, followed by the incoming
type when it is not among them. -/
theorem mergeCondition_types (l : List Condition) (q : Condition) :
    (mergeCondition l q).1.map (fun c => c.Type_) =
      if q.Type_ ∈ l.map (fun c => c.Type_) then l.map (fun c => c.Type_)
      else l.map (fun c => c.Type_) ++ [q.Type_] := by
  by_cases h : q.Type_ ∈ l.map (fun c => c.Type_)
  · have hm : ∃ e ∈ l, e.Type_ = q.Type_ := by
      obtain ⟨e, he, het⟩ := List.mem_map.1 h
      exact ⟨e, he, het⟩
    simp only [mergeCondition, conditionLoop_new_of_match q l true hm, if_pos h]
    simpa using conditionLoop_types q l true
  · have hm : ∀ e ∈ l, e.Type_ ≠ q.Type_ := by
      intro e he het
      exact h (List.mem_map.2 ⟨e, he, het⟩)
    rw [if_neg h]
    simp [mergeCondition, conditionLoop_no_match q l true hm]

/-- The merge keeps the types pairwise distinct. -/
theorem mergeCondition_unique (l : List Condition) (q : Condition) (h : UniqueTypes l) :
    UniqueTypes (mergeCondition l q).1 := by
  unfold UniqueTypes at *
  rw [mergeCondition_types]
  split_ifs with hq
  · exact h
  · exact List.Nodup.append h (by simp) (by simpa using hq)

/-- The merged list has an entry with the incoming type, status and reason. -/
theorem mergeCondition_has (l : List Condition) (q : Condition) :
    ∃ e ∈ (mergeCondition l q).1,
      e.Type_ = q.Type_ ∧ e.Status = q.Status ∧ e.Reason = q.Reason := by
  by_cases hd : ∃ e ∈ l, e.Type_ = q.Type_ ∧ (e.Status ≠ q.Status ∨ e.Reason ≠ q.Reason)
  · obtain ⟨_, i, ⟨e, hi, _, _⟩, hset⟩ := conditionLoop_differs q l true hd
    have hnew : (conditionLoop q l true).2.1 = false := by
      obtain ⟨e, he, het, _⟩ := hd
      exact conditionLoop_new_of_match q l true ⟨e, he, het⟩
    have hlt : i < l.length := by
      by_contra hge
      simp [List.getElem?_eq_none (not_lt.1 hge)] at hi
    refine ⟨q, ?_, rfl, rfl, rfl⟩
    simp only [mergeCondition, hnew]
    simp only [hset]
    exact List.mem_iff_getElem.2 ⟨i, by simpa using hlt, by simp⟩
  · by_cases hm : ∃ e ∈ l, e.Type_ = q.Type_
    · obtain ⟨e, he, het⟩ := hm
      have hall : ∀ e ∈ l, e.Type_ = q.Type_ → e.Status = q.Status ∧ e.Reason = q.Reason := by
        intro e he het
        by_contra hne
        exact hd ⟨e, he, het, by tauto⟩
      refine ⟨e, ?_, het, hall e he het⟩
      simp only [mergeCondition, conditionLoop_new_of_match q l true ⟨e, he, het⟩]
      simpa [(conditionLoop_all_equal q l true hall).1] using he
    · have hno : ∀ e ∈ l, e.Type_ ≠ q.Type_ := fun e he het => hm ⟨e, he, het⟩
      refine ⟨q, ?_, rfl, rfl, rfl⟩
      simp [mergeCondition, conditionLoop_no_match q l true hno]

/-- Without an entry of the incoming type that differs, the merge is the
identity and reports no change, provided the type is present. -/
theorem mergeCondition_all_equal (l : List Condition) (q : Condition)
    (hm : ∃ e ∈ l, e.Type_ = q.Type_)
    (hall : ∀ e ∈ l, e.Type_ = q.Type_ → e.Status = q.Status ∧ e.Reason = q.Reason) :
    mergeCondition l q = (l, false) := by
  have h := conditionLoop_all_equal q l true hall
  simp only [mergeCondition, conditionLoop_new_of_match q l true hm]
  simp [h.1, h.2]

/-- A merge that reports no change returns the list it was given. -/
theorem mergeCondition_unchanged (l : List Condition) (q : Condition)
    (h : (mergeCondition l q).2 = false) : (mergeCondition l q).1 = l := by
  by_cases hd : ∃ e ∈ l, e.Type_ = q.Type_ ∧ (e.Status ≠ q.Status ∨ e.Reason ≠ q.Reason)
  · have hc := (conditionLoop_differs q l true hd).1
    have hnew : (conditionLoop q l true).2.1 = false := by
      obtain ⟨e, he, het, _⟩ := hd
      exact conditionLoop_new_of_match q l true ⟨e, he, het⟩
    simp [mergeCondition, hnew, hc] at h
  · have hall : ∀ e ∈ l, e.Type_ = q.Type_ → e.Status = q.Status ∧ e.Reason = q.Reason := by
      intro e he het
      by_contra hne
      exact hd ⟨e, he, het, by tauto⟩
    by_cases hm : ∃ e ∈ l, e.Type_ = q.Type_
    · rw [mergeCondition_all_equal l q hm hall]
    · have hno : ∀ e ∈ l, e.Type_ ≠ q.Type_ := fun e he het => hm ⟨e, he, het⟩
      simp [mergeCondition, conditionLoop_no_match q l true hno] at h

/-! ## The condition merge (claims C3 to C6) -/

/-- C3. Condition uniqueness: the merge keeps "at most one entry per condition
type", and any sequence of merge calls that starts from the empty list ends in a
list with at most one entry per type. -/
theorem condition_uniqueness :
    (∀ existing incoming, UniqueTypes existing →
      UniqueTypes (mergeCondition existing incoming).1) ∧
    (∀ incoming : List Condition, UniqueTypes (mergeAll [] incoming)) := by
  refine ⟨fun existing incoming h => mergeCondition_unique existing incoming h, ?_⟩
  have key : ∀ (incoming start : List Condition), UniqueTypes start →
      UniqueTypes (mergeAll start incoming) := by
    intro incoming
    induction incoming with
    | nil => intro start h; simpa [mergeAll] using h
    | cons c cs ih =>
      intro start h
      have := ih (mergeCondition start c).1 (mergeCondition_unique start c h)
      simpa [mergeAll] using this
  intro incoming
  exact key incoming [] (by simp [UniqueTypes])

/-- C4, as stated, fails: `[readyEntry, errorEntry]` holds an entry with the type,
status and reason of the incoming condition, yet the merge replaces the second
entry and reports a change. -/
theorem merge_equal_case_duplicate_types :
    (∃ e ∈ [readyEntry, errorEntry],
      e.Type_ = (quotaCondition 5 none).Type_ ∧ e.Status = (quotaCondition 5 none).Status ∧
        e.Reason = (quotaCondition 5 none).Reason) ∧
    mergeCondition [readyEntry, errorEntry] (quotaCondition 5 none) =
      ([readyEntry, quotaCondition 5 none], true) ∧
    mergeCondition [readyEntry, errorEntry] (quotaCondition 5 none) ≠
      ([readyEntry, errorEntry], false) := by
  refine ⟨⟨readyEntry, by simp, by decide, by decide, by decide⟩, by decide, by decide⟩

/-- C4, amended. Merge, equal case: when the list has an entry of the incoming
type and every entry of that type has the incoming status and reason, the merge
returns the list unmutated and reports no change, whatever the messages and
times are. -/
theorem merge_equal_case (existing : List Condition) (incoming : Condition)
    (hm : ∃ e ∈ existing, e.Type_ = incoming.Type_)
    (hall : ∀ e ∈ existing, e.Type_ = incoming.Type_ →
      e.Status = incoming.Status ∧ e.Reason = incoming.Reason) :
    mergeCondition existing incoming = (existing, false) :=
  mergeCondition_all_equal existing incoming hm hall

/-- C4 at `[otherEntry, readyEntry]` and the success condition of time 5, whose
message and time differ from those of `readyEntry`. -/
theorem merge_equal_case_witness :
    readyEntry.Message ≠ (quotaCondition 5 none).Message ∧
    readyEntry.LastTransitionTime ≠ (quotaCondition 5 none).LastTransitionTime ∧
    mergeCondition [otherEntry, readyEntry] (quotaCondition 5 none) =
      ([otherEntry, readyEntry], false) :=
  ⟨by decide, by decide,
    merge_equal_case [otherEntry, readyEntry] (quotaCondition 5 none)
      ⟨readyEntry, by simp, by decide⟩ (by decide)⟩

/-- C5. Merge, replace case: when the list has an entry of the incoming type whose
status or reason differs, the merge reports a change, keeps the length, holds the
incoming condition (its time included) at the position of such an entry and
equals the list at every other position. The condition `Reconcile` merges is
stamped with the current time. -/
theorem merge_replace_case (existing : List Condition) (incoming : Condition)
    (h : ∃ e ∈ existing, e.Type_ = incoming.Type_ ∧
      (e.Status ≠ incoming.Status ∨ e.Reason ≠ incoming.Reason)) :
    (mergeCondition existing incoming).2 = true ∧
    (mergeCondition existing incoming).1.length = existing.length ∧
    (∃ i : Nat, (∃ e : Condition, existing[i]? = some e ∧ e.Type_ = incoming.Type_ ∧
        (e.Status ≠ incoming.Status ∨ e.Reason ≠ incoming.Reason)) ∧
      (mergeCondition existing incoming).1[i]? = some incoming ∧
      ∀ j : Nat, j ≠ i → (mergeCondition existing incoming).1[j]? = existing[j]?) ∧
    (∀ now rtnErr, (quotaCondition now rtnErr).LastTransitionTime = now) := by
  obtain ⟨hc, i, hi, hset⟩ := conditionLoop_differs incoming existing true h
  have hnew : (conditionLoop incoming existing true).2.1 = false := by
    obtain ⟨e, he, het, _⟩ := h
    exact conditionLoop_new_of_match incoming existing true ⟨e, he, het⟩
  have hlt : i < existing.length := by
    obtain ⟨e, hie, _⟩ := hi
    by_contra hge
    simp [List.getElem?_eq_none (not_lt.1 hge)] at hie
  have h1 : (mergeCondition existing incoming).1 = existing.set i incoming := by
    simp only [mergeCondition, hnew]
    simpa using hset
  have h2 : (mergeCondition existing incoming).2 = true := by
    simp only [mergeCondition, hnew]
    simpa using hc
  refine ⟨h2, by simp [h1], ⟨i, hi, ?_, ?_⟩, ?_⟩
  · rw [h1]; simp [hlt]
  · intro j hj
    rw [h1]
    exact List.getElem?_set_ne (Ne.symm hj)
  · intro now rtnErr
    unfold quotaCondition
    split_ifs <;> rfl

/-- C5 at `[otherEntry, errorEntry]` and the success condition of time 5. -/
theorem merge_replace_case_witness :
    mergeCondition [otherEntry, errorEntry] (quotaCondition 5 none) =
      ([otherEntry, quotaCondition 5 none], true) ∧
    (mergeCondition [otherEntry, errorEntry] (quotaCondition 5 none)).1.length = 2 :=
  ⟨by decide,
    (merge_replace_case [otherEntry, errorEntry] (quotaCondition 5 none)
      ⟨errorEntry, by simp, by decide⟩).2.1⟩

/-- C6. Merge, append case: when the list has no entry of the incoming type, the
merge returns the list followed by the incoming condition and reports a change. -/
theorem merge_append_case (existing : List Condition) (incoming : Condition)
    (h : ∀ e ∈ existing, e.Type_ ≠ incoming.Type_) :
    mergeCondition existing incoming = (existing ++ [incoming], true) ∧
    (mergeCondition existing incoming).1.length = existing.length + 1 := by
  have h1 : mergeCondition existing incoming = (existing ++ [incoming], true) := by
    simp [mergeCondition, conditionLoop_no_match incoming existing true h]
  exact ⟨h1, by simp [h1]⟩

/-- C6 at `[otherEntry]` and the failure condition of time 5. -/
theorem merge_append_case_witness :
    mergeCondition [otherEntry] (quotaCondition 5 (some unavailable)) =
      ([otherEntry, quotaCondition 5 (some unavailable)], true) :=
  (merge_append_case [otherEntry] (quotaCondition 5 (some unavailable)) (by decide)).1

/-! ## The outcome of an invocation (claims C1, C7, C8, C10) -/

/-- An invocation that fetched the object, field by field, in terms of the
outcome of the apply, of the merge and of the status patch. -/
theorem Reconcile_fetched {W : Type} (r : Client W) (now : Time) (ctx : Context)
    (req : Request) (w w1 w2 w3 : W) (allSettings : SettingsList) (s : Settings)
    (operationResult : OperationResult) (rtnErr : Option APIError)
    (hList : r.List ctx w = (.ok allSettings, w1))
    (hGet : r.Get (WithCluster ctx req.ClusterName) req.NamespacedName w1 = (.ok s, w2))
    (hApply : r.CreateOrPatch (WithCluster ctx req.ClusterName) wsQuota mutateQuota w2 =
      ((operationResult, rtnErr), w3)) :
    let run := Reconcile r now ctx req w
    let merged := mergeCondition s.Status.Conditions (quotaCondition now rtnErr)
    let s1 : Settings := { s with Status := { Conditions := merged.1 } }
    let patched := r.StatusPatch (WithCluster ctx req.ClusterName) s1 (MergeFrom s) w3
    run.result = {} ∧
    run.calls = [.List, .Get (WithCluster ctx req.ClusterName) req.NamespacedName,
        .CreateOrPatch (WithCluster ctx req.ClusterName) wsQuota] ++
      (if merged.2 = true then [.StatusPatch (WithCluster ctx req.ClusterName) s1 (MergeFrom s)]
        else []) ∧
    run.err = (if merged.2 = true ∧ patched.1 ≠ none ∧ rtnErr = none then patched.1 else rtnErr) ∧
    run.world = (if merged.2 = true then patched.2 else w3) ∧
    run.operationResult = some operationResult ∧
    run.s = some s1 ∧
    run.conditionChanged = merged.2 := by
  intro run merged s1 patched
  cases hm : merged.2 with
  | false =>
    have hm1 : (mergeCondition s.Status.Conditions (quotaCondition now rtnErr)).2 = false := hm
    simp only [run, Reconcile, hList, hGet, hApply, hm1]
    simp [s1, merged]
  | true =>
    have hm1 : (mergeCondition s.Status.Conditions (quotaCondition now rtnErr)).2 = true := hm
    cases hp : patched with
    | mk pe w4 =>
      have hp1 : r.StatusPatch (WithCluster ctx req.ClusterName)
          { s with Status := { Conditions :=
            (mergeCondition s.Status.Conditions (quotaCondition now rtnErr)).1 } }
          (MergeFrom s) w3 = (pe, w4) := hp
      cases pe with
      | none =>
        simp only [run, Reconcile, hList, hGet, hApply, hm1, if_true, hp1]
        simp [s1, merged]
      | some e =>
        simp only [run, Reconcile, hList, hGet, hApply, hm1, if_true, hp1]
        by_cases h : rtnErr = none <;> simp [s1, merged, h]

/-- C1. For an invocation that fetched the object: a failed apply is the returned
error whatever the status patch did; with a successful apply, a failed status
patch is the returned error; otherwise no error is returned. The result requests
no requeue, and the status patch is attempted exactly when the merge reported a
change. -/
theorem reconcile_returned_error {W : Type} (r : Client W) (now : Time) (ctx : Context)
    (req : Request) (w w1 w2 w3 : W) (allSettings : SettingsList) (s : Settings)
    (operationResult : OperationResult) (rtnErr : Option APIError)
    (hList : r.List ctx w = (.ok allSettings, w1))
    (hGet : r.Get (WithCluster ctx req.ClusterName) req.NamespacedName w1 = (.ok s, w2))
    (hApply : r.CreateOrPatch (WithCluster ctx req.ClusterName) wsQuota mutateQuota w2 =
      ((operationResult, rtnErr), w3)) :
    let run := Reconcile r now ctx req w
    let merged := mergeCondition s.Status.Conditions (quotaCondition now rtnErr)
    let s1 : Settings := { s with Status := { Conditions := merged.1 } }
    let patchErr := (r.StatusPatch (WithCluster ctx req.ClusterName) s1 (MergeFrom s) w3).1
    let attempted := Call.StatusPatch (WithCluster ctx req.ClusterName) s1 (MergeFrom s) ∈ run.calls
    (run.result.Requeue = false ∧ run.result.RequeueAfter = 0) ∧
    (attempted ↔ merged.2 = true) ∧
    (rtnErr ≠ none → run.err = rtnErr) ∧
    (rtnErr = none → attempted → patchErr ≠ none → run.err = patchErr) ∧
    (rtnErr = none → (¬ attempted ∨ patchErr = none) → run.err = none) := by
  intro run merged s1 patchErr attempted
  obtain ⟨hres, hcalls, herr, -, -, -, -⟩ :=
    Reconcile_fetched r now ctx req w w1 w2 w3 allSettings s operationResult rtnErr
      hList hGet hApply
  have hatt : attempted ↔ merged.2 = true := by
    simp only [attempted, run, hcalls]
    cases hm : (mergeCondition s.Status.Conditions (quotaCondition now rtnErr)).2 <;>
      simp [merged, hm]
  refine ⟨by simp [run, hres], hatt, ?_, ?_, ?_⟩
  · intro h
    simp only [run, herr]
    simp [h]
  · intro h ha hne
    simp only [run, herr]
    rw [if_pos ⟨hatt.1 ha, hne, h⟩]
  · intro h hor
    simp only [run, herr]
    rcases hor with hna | hnone
    · have : ¬ (mergeCondition s.Status.Conditions (quotaCondition now rtnErr)).2 = true :=
        fun hm => hna (hatt.2 hm)
      rw [if_neg (fun hc => this hc.1)]
      exact h
    · have hnone1 : (r.StatusPatch (WithCluster ctx req.ClusterName)
          { s with Status := { Conditions :=
            (mergeCondition s.Status.Conditions (quotaCondition now rtnErr)).1 } }
          (MergeFrom s) w3).1 = none := hnone
      rw [if_neg (fun hc => hc.2.1 hnone1)]
      exact h

/-- C1 on fixed outcomes: the apply fails with `unavailable` and the status patch
fails with `conflict`; the apply error is returned. -/
theorem reconcile_returned_error_witness :
    (Reconcile (fixedClient (.ok { Items := [] }) (.ok sampleSettings)
      (OperationResultNone, some unavailable) (some conflict)) 5 background sampleRequest 0).err =
      some unavailable :=
  (reconcile_returned_error
    (fixedClient (.ok { Items := [] }) (.ok sampleSettings)
      (OperationResultNone, some unavailable) (some conflict))
    5 background sampleRequest 0 1 2 3 { Items := [] } sampleSettings OperationResultNone
    (some unavailable) rfl rfl rfl).2.2.1 (by decide)

/-- C7. For an invocation that fetched the object, whatever its prior condition
list: after the merge the working copy has an entry of type `QuotaReady` with
status `True` and reason `QuotaCreated` when the apply succeeded, and with status
`False` and reason `Error` when it failed. -/
theorem condition_reflects_apply {W : Type} (r : Client W) (now : Time) (ctx : Context)
    (req : Request) (w w1 w2 w3 : W) (allSettings : SettingsList) (s : Settings)
    (operationResult : OperationResult) (rtnErr : Option APIError)
    (hList : r.List ctx w = (.ok allSettings, w1))
    (hGet : r.Get (WithCluster ctx req.ClusterName) req.NamespacedName w1 = (.ok s, w2))
    (hApply : r.CreateOrPatch (WithCluster ctx req.ClusterName) wsQuota mutateQuota w2 =
      ((operationResult, rtnErr), w3)) :
    ∃ s1, (Reconcile r now ctx req w).s = some s1 ∧
      ∃ e ∈ s1.Status.Conditions, e.Type_ = "QuotaReady" ∧
        (rtnErr = none → e.Status = ConditionTrue ∧ e.Reason = "QuotaCreated") ∧
        (rtnErr ≠ none → e.Status = ConditionFalse ∧ e.Reason = "Error") := by
  obtain ⟨e, he, ht, hs, hr⟩ :=
    mergeCondition_has s.Status.Conditions (quotaCondition now rtnErr)
  refine ⟨{ s with Status := { Conditions :=
    (mergeCondition s.Status.Conditions (quotaCondition now rtnErr)).1 } }, ?_, e, he, ?_, ?_, ?_⟩
  · simp only [Reconcile, hList, hGet, hApply]
    split
    · split <;> rfl
    · rfl
  · rw [ht]; unfold quotaCondition; split_ifs <;> rfl
  · intro h; rw [hs, hr]; simp [quotaCondition, h]
  · intro h; rw [hs, hr]; simp [quotaCondition, h]

/-- C7 on fixed outcomes: the object holds `[readyEntry]` and the apply fails. -/
theorem condition_reflects_apply_witness :
    ∃ s1, (Reconcile (fixedClient (.ok { Items := [] })
        (.ok { sampleSettings with Status := { Conditions := [readyEntry] } })
        (OperationResultNone, some unavailable) none) 5 background sampleRequest 0).s = some s1 ∧
      ∃ e ∈ s1.Status.Conditions, e.Type_ = "QuotaReady" ∧
        (some unavailable = none → e.Status = ConditionTrue ∧ e.Reason = "QuotaCreated") ∧
        (some unavailable ≠ none → e.Status = ConditionFalse ∧ e.Reason = "Error") :=
  condition_reflects_apply
    (fixedClient (.ok { Items := [] })
      (.ok { sampleSettings with Status := { Conditions := [readyEntry] } })
      (OperationResultNone, some unavailable) none)
    5 background sampleRequest 0 1 2 3 { Items := [] }
    { sampleSettings with Status := { Conditions := [readyEntry] } } OperationResultNone
    (some unavailable) rfl rfl rfl

/-- C8. When the fetch fails, the invocation issues no write and leaves the world
as the fetch left it; a not-found failure gives no error, any other failure is
returned as the error; the result requests no requeue. -/
theorem fetch_failure {W : Type} (r : Client W) (now : Time) (ctx : Context)
    (req : Request) (w w1 w2 : W) (allSettings : SettingsList) (err : APIError)
    (hList : r.List ctx w = (.ok allSettings, w1))
    (hGet : r.Get (WithCluster ctx req.ClusterName) req.NamespacedName w1 = (.error err, w2)) :
    let run := Reconcile r now ctx req w
    (run.result.Requeue = false ∧ run.result.RequeueAfter = 0) ∧
    (IsNotFound err = true → run.err = none) ∧
    (IsNotFound err = false → run.err = some err) ∧
    run.calls = [.List, .Get (WithCluster ctx req.ClusterName) req.NamespacedName] ∧
    (∀ c ∈ run.calls, c.isWrite = false) ∧
    run.world = w2 := by
  intro run
  cases hnf : IsNotFound err <;>
    simp [run, Reconcile, hList, hGet, hnf, Call.isWrite]

/-- C8 on fixed outcomes: the fetch reports not-found by its reason; it reports a
404 with a reason that is not a known one, which is not-found as well; it reports
a 404 with the known reason `Gone`, which is returned. -/
theorem fetch_failure_witness :
    ((Reconcile (fixedClient (.ok { Items := [] }) (.error notFound)
        (OperationResultCreated, none) none) 5 background sampleRequest 0).err = none ∧
      (Reconcile (fixedClient (.ok { Items := [] }) (.error notFound)
        (OperationResultCreated, none) none) 5 background sampleRequest 0).calls =
        [.List, .Get { Cluster := some "ws1" } { Namespace := "default", Name := "settings" }]) ∧
    (Reconcile (fixedClient (.ok { Items := [] }) (.error bareNotFound)
      (OperationResultCreated, none) none) 5 background sampleRequest 0).err = none ∧
    (Reconcile (fixedClient (.ok { Items := [] }) (.error goneNotFound)
      (OperationResultCreated, none) none) 5 background sampleRequest 0).err =
      some goneNotFound :=
  ⟨⟨(fetch_failure (fixedClient (.ok { Items := [] }) (.error notFound)
      (OperationResultCreated, none) none) 5 background sampleRequest 0 1 2 { Items := [] }
      notFound rfl rfl).2.1 (by decide),
    (fetch_failure (fixedClient (.ok { Items := [] }) (.error notFound)
      (OperationResultCreated, none) none) 5 background sampleRequest 0 1 2 { Items := [] }
      notFound rfl rfl).2.2.2.1⟩,
    (fetch_failure (fixedClient (.ok { Items := [] }) (.error bareNotFound)
      (OperationResultCreated, none) none) 5 background sampleRequest 0 1 2 { Items := [] }
      bareNotFound rfl rfl).2.1 (by decide),
    (fetch_failure (fixedClient (.ok { Items := [] }) (.error goneNotFound)
      (OperationResultCreated, none) none) 5 background sampleRequest 0 1 2 { Items := [] }
      goneNotFound rfl rfl).2.2.1 (by decide)⟩

/-- C10, as stated, fails: with the same fetch, apply and patch outcomes, a
listing that succeeds gives no error and two writes, a listing that fails gives
the listing error and no write. -/
theorem listing_failure_changes_outcome :
    (Reconcile (fixedClient (.ok { Items := [] }) (.ok sampleSettings)
      (OperationResultCreated, none) none) 5 background sampleRequest 0).err = none ∧
    ((Reconcile (fixedClient (.ok { Items := [] }) (.ok sampleSettings)
      (OperationResultCreated, none) none) 5 background sampleRequest 0).calls.filter
        Call.isWrite).length = 2 ∧
    (Reconcile (fixedClient (.error unavailable) (.ok sampleSettings)
      (OperationResultCreated, none) none) 5 background sampleRequest 0).err =
      some unavailable ∧
    ((Reconcile (fixedClient (.error unavailable) (.ok sampleSettings)
      (OperationResultCreated, none) none) 5 background sampleRequest 0).calls.filter
        Call.isWrite).length = 0 := by
  refine ⟨by decide, by decide, by decide, by decide⟩

/-- C10, amended. The items the listing returns have no effect: two listings that
succeed and leave the same world give the same invocation, whatever items they
return. A listing that fails ends the invocation: its error is returned, with no
requeue, no fetch and no write. -/
theorem listing_items_irrelevant {W : Type} (r : Client W)
    (list1 list2 : Context → W → Except APIError SettingsList × W) (now : Time)
    (ctx : Context) (req : Request) (w w1 : W) (items1 items2 : SettingsList)
    (h1 : list1 ctx w = (.ok items1, w1)) (h2 : list2 ctx w = (.ok items2, w1)) :
    Reconcile { r with List := list1 } now ctx req w =
      Reconcile { r with List := list2 } now ctx req w ∧
    (∀ (list : Context → W → Except APIError SettingsList × W) (err : APIError) (w2 : W),
      list ctx w = (.error err, w2) →
        (Reconcile { r with List := list } now ctx req w).err = some err ∧
        (Reconcile { r with List := list } now ctx req w).result = {} ∧
        (Reconcile { r with List := list } now ctx req w).calls = [.List] ∧
        (Reconcile { r with List := list } now ctx req w).world = w2) := by
  constructor
  · simp only [Reconcile, h1, h2]
  · intro list err w2 h
    simp only [Reconcile, h]
    simp

/-- C10 on fixed outcomes: a listing of no item and a listing of one item. -/
theorem listing_items_irrelevant_witness :
    Reconcile (fixedClient (.ok { Items := [] }) (.ok sampleSettings)
        (OperationResultCreated, none) none) 5 background sampleRequest 0 =
      Reconcile (fixedClient (.ok { Items := [sampleSettings] }) (.ok sampleSettings)
        (OperationResultCreated, none) none) 5 background sampleRequest 0 :=
  (listing_items_irrelevant
    (fixedClient (.ok { Items := [] }) (.ok sampleSettings) (OperationResultCreated, none) none)
    (fun _ n => (.ok { Items := [] }, n + 1))
    (fun _ n => (.ok { Items := [sampleSettings] }, n + 1))
    5 background sampleRequest 0 1 { Items := [] } { Items := [sampleSettings] } rfl rfl).1

/-! ## Two invocations in succession (claim C2) -/

/-- After a replacement by an entry that satisfies `p`, the first entry that
satisfies `p` is the new one. -/
theorem find_replaceFirst {α : Type} (p : α → Bool) (new : α) (l : List α)
    (hnew : p new = true) (h : ∃ x ∈ l, p x = true) :
    (replaceFirst p new l).find? p = some new := by
  induction l with
  | nil => simp at h
  | cons x xs ih =>
    unfold replaceFirst
    by_cases hx : p x = true
    · simp [hx, hnew]
    · have hxs : ∃ y ∈ xs, p y = true := by
        obtain ⟨y, hy, hpy⟩ := h
        rcases List.mem_cons.1 hy with rfl | hy
        · exact absurd hpy hx
        · exact ⟨y, hy, hpy⟩
      simp [hx, ih hxs]

/-- The applier leaves a dependent resource that already has the desired spec,
and leaves the Configuration Objects alone. -/
theorem applyDesired_converges (ctx : Context) (w : World) :
    (applyDesired ctx wsQuota mutateQuota w).1.2 = none ∧
    (applyDesired ctx wsQuota mutateQuota w).2.settings = w.settings ∧
    ∃ q, (applyDesired ctx wsQuota mutateQuota w).2.quotas.find? (quotaAt (scopeOf ctx) wsQuota) =
      some q ∧ mutateQuota q = q := by
  cases hf : w.quotas.find? (quotaAt (scopeOf ctx) wsQuota) with
  | none =>
    have happ : applyDesired ctx wsQuota mutateQuota w =
        ((OperationResultCreated, none), World.mk w.settings
          (w.quotas ++ [mutateQuota { wsQuota with ClusterName := scopeOf ctx }])) := by
      simp only [applyDesired, hf]
    rw [happ]
    refine ⟨rfl, rfl, mutateQuota { wsQuota with ClusterName := scopeOf ctx }, ?_, rfl⟩
    show (w.quotas ++ [mutateQuota { wsQuota with ClusterName := scopeOf ctx }]).find?
      (quotaAt (scopeOf ctx) wsQuota) = _
    rw [List.find?_append, hf]
    simp [quotaAt, mutateQuota, wsQuota]
  | some observed =>
    by_cases heq : mutateQuota observed = observed
    · have happ : applyDesired ctx wsQuota mutateQuota w = ((OperationResultNone, none), w) := by
        simp only [applyDesired, hf, heq, if_true]
      rw [happ]
      exact ⟨rfl, rfl, observed, hf, heq⟩
    · have happ : applyDesired ctx wsQuota mutateQuota w =
          ((OperationResultUpdated, none), World.mk w.settings
            (replaceFirst (quotaAt (scopeOf ctx) wsQuota) (mutateQuota observed) w.quotas)) := by
        simp only [applyDesired, hf, heq, if_false]
      rw [happ]
      refine ⟨rfl, rfl, mutateQuota observed, ?_, rfl⟩
      have hobs : quotaAt (scopeOf ctx) wsQuota observed = true := List.find?_some hf
      apply find_replaceFirst
      · simpa [quotaAt, mutateQuota] using hobs
      · exact ⟨observed, List.mem_of_find?_eq_some hf, hobs⟩

/-- The applier writes nothing when the dependent resource has the desired spec. -/
theorem applyDesired_unchanged (ctx : Context) (w : World) (q : ResourceQuota)
    (hf : w.quotas.find? (quotaAt (scopeOf ctx) wsQuota) = some q) (hq : mutateQuota q = q) :
    applyDesired ctx wsQuota mutateQuota w = ((OperationResultNone, none), w) := by
  simp [applyDesired, hf, hq]

/-- The scope of the context `Reconcile` makes its calls with. -/
theorem scopeOf_WithCluster (ctx : Context) (name : String) :
    scopeOf (WithCluster ctx name) = name := rfl

/-- One invocation on the modelled server, for an object that exists: no error;
the stored object then holds the merged condition list; the dependent resource is
as the applier leaves it; without a change there is no status patch and the
stored objects stay as they were. -/
theorem reconcile_apiServer (now : Time) (ctx : Context) (req : Request) (w : World)
    (s : Settings)
    (hs : w.settings.find? (settingsAt req.ClusterName req.NamespacedName) = some s) :
    (Reconcile apiServer now ctx req w).err = none ∧
    (Reconcile apiServer now ctx req w).conditionChanged =
      (mergeCondition s.Status.Conditions (quotaCondition now none)).2 ∧
    (∃ s1, (Reconcile apiServer now ctx req w).world.settings.find?
        (settingsAt req.ClusterName req.NamespacedName) = some s1 ∧
      s1.Status.Conditions = (mergeCondition s.Status.Conditions (quotaCondition now none)).1) ∧
    (Reconcile apiServer now ctx req w).world.quotas =
      (applyDesired (WithCluster ctx req.ClusterName) wsQuota mutateQuota w).2.quotas ∧
    (Reconcile apiServer now ctx req w).operationResult =
      some (applyDesired (WithCluster ctx req.ClusterName) wsQuota mutateQuota w).1.1 ∧
    ((mergeCondition s.Status.Conditions (quotaCondition now none)).2 = false →
      (Reconcile apiServer now ctx req w).world.settings = w.settings ∧
      ∀ c ∈ (Reconcile apiServer now ctx req w).calls, c.isStatusPatch = false) := by
  have hkey : settingsAt req.ClusterName req.NamespacedName s = true := List.find?_some hs
  have hk : ({ Namespace := s.Namespace, Name := s.Name } : NamespacedName) =
      req.NamespacedName := by
    cases hreq : req.NamespacedName with
    | mk ns nm =>
      simp [settingsAt, hreq] at hkey
      simp [hkey]
  obtain ⟨hAe, hAs, -⟩ := applyDesired_converges (WithCluster ctx req.ClusterName) w
  generalize hA : applyDesired (WithCluster ctx req.ClusterName) wsQuota mutateQuota w = A at *
  obtain ⟨⟨op, e⟩, wA⟩ := A
  simp only at hAe hAs
  subst hAe
  have hfind : wA.settings.find? (settingsAt req.ClusterName req.NamespacedName) = some s := by
    rw [hAs]; exact hs
  cases hm : (mergeCondition s.Status.Conditions (quotaCondition now none)).2 with
  | false =>
    simp only [Reconcile, apiServer, apiList, apiGet, scopeOf_WithCluster, hs, hA, hm]
    simp [Call.isStatusPatch, hAs, hs, mergeCondition_unchanged _ _ hm]
  | true =>
    by_cases hst : ({ Conditions := (mergeCondition s.Status.Conditions
        (quotaCondition now none)).1 } : SettingsStatus) = s.Status
    · simp only [Reconcile, apiServer, apiList, apiGet, scopeOf_WithCluster, hs, hA, hm,
        patchStatus, hk, hfind, MergeFrom, hst, if_true]
      simp [hfind]
      exact (congrArg SettingsStatus.Conditions hst).symm
    · simp only [Reconcile, apiServer, apiList, apiGet, scopeOf_WithCluster, hs, hA, hm,
        patchStatus, hk, hfind, MergeFrom, hst, if_true, if_false]
      simp
      refine ⟨_, find_replaceFirst _ _ _ ?_ ⟨s, List.mem_of_find?_eq_some hfind, hkey⟩, rfl⟩
      simpa [settingsAt] using hkey

/-- Merging a condition again, with the same type, status and reason, into a
list with one entry per type changes nothing. -/
theorem mergeCondition_again (l : List Condition) (q q1 : Condition) (hu : UniqueTypes l)
    (ht : q1.Type_ = q.Type_) (hs : q1.Status = q.Status) (hr : q1.Reason = q.Reason) :
    mergeCondition (mergeCondition l q).1 q1 = ((mergeCondition l q).1, false) := by
  have hu1 := mergeCondition_unique l q hu
  obtain ⟨e, he, het, hes, her⟩ := mergeCondition_has l q
  apply mergeCondition_all_equal
  · exact ⟨e, he, by rw [het, ht]⟩
  · intro e1 he1 het1
    have : e1 = e := by
      unfold UniqueTypes at hu1
      exact List.inj_on_of_nodup_map hu1 he1 he (by rw [het1, ht, het])
    rw [this, hes, her, hs, hr]
    exact ⟨rfl, rfl⟩

/-- C2. Idempotence, on the modelled server: when the object exists with at most
one condition per type and `Reconcile` runs twice in succession, both runs
succeed, the merge of the second run reports no change and no status patch is
issued, the applier of the second run reports `unchanged`, and the second run
leaves the dependent resources, and the whole world, as the first run left them. -/
theorem reconcile_idempotent (now1 now2 : Time) (ctx1 ctx2 : Context) (req : Request)
    (w : World) (s : Settings)
    (hGet : (apiGet (WithCluster ctx1 req.ClusterName) req.NamespacedName w).1 = .ok s)
    (hu : UniqueTypes s.Status.Conditions) :
    let run1 := Reconcile apiServer now1 ctx1 req w
    let run2 := Reconcile apiServer now2 ctx2 req run1.world
    run1.err = none ∧ run2.err = none ∧
    run2.conditionChanged = false ∧
    (∀ c ∈ run2.calls, c.isStatusPatch = false) ∧
    run2.operationResult = some OperationResultNone ∧
    run2.world.quotas = run1.world.quotas ∧
    run2.world = run1.world := by
  intro run1 run2
  have hs : w.settings.find? (settingsAt req.ClusterName req.NamespacedName) = some s := by
    unfold apiGet at hGet
    rw [scopeOf_WithCluster] at hGet
    cases hf : w.settings.find? (settingsAt req.ClusterName req.NamespacedName) with
    | none => simp [hf] at hGet
    | some s0 =>
      simp only [hf] at hGet
      cases hGet
      rfl
  obtain ⟨he1, -, ⟨s1, hs1, hc1⟩, hq1, -, -⟩ := reconcile_apiServer now1 ctx1 req w s hs
  obtain ⟨-, -, q, hq, hqq⟩ := applyDesired_converges (WithCluster ctx1 req.ClusterName) w
  rw [← hq1, scopeOf_WithCluster] at hq
  obtain ⟨he2, hch2, -, hq2, ho2, hno2⟩ :=
    reconcile_apiServer now2 ctx2 req run1.world s1 hs1
  have hagain : mergeCondition s1.Status.Conditions (quotaCondition now2 none) =
      (s1.Status.Conditions, false) := by
    rw [hc1]
    exact mergeCondition_again s.Status.Conditions (quotaCondition now1 none)
      (quotaCondition now2 none) hu rfl rfl rfl
  have happ := applyDesired_unchanged (WithCluster ctx2 req.ClusterName) run1.world q
    (by rw [scopeOf_WithCluster]; exact hq) hqq
  rw [happ] at hq2 ho2
  rw [hagain] at hch2 hno2
  obtain ⟨hset2, hcalls2⟩ := hno2 rfl
  refine ⟨he1, he2, hch2, hcalls2, ho2, hq2, ?_⟩
  cases hw2 : run2.world with
  | mk st qs =>
    cases hw1 : run1.world with
    | mk st1 qs1 =>
      have e1 : run2.world.settings = run1.world.settings := hset2
      have e2 : run2.world.quotas = run1.world.quotas := hq2
      rw [hw2, hw1] at e1 e2
      simp only at e1 e2
      rw [e1, e2]

/-- C2 on `sampleWorld`: the first run creates the dependent resource and patches
the status, the second run reports no change and leaves the world as it was. -/
theorem reconcile_idempotent_witness :
    (Reconcile apiServer 5 background sampleRequest sampleWorld).operationResult =
      some OperationResultCreated ∧
    (Reconcile apiServer 5 background sampleRequest sampleWorld).conditionChanged = true ∧
    (Reconcile apiServer 9 background sampleRequest
      (Reconcile apiServer 5 background sampleRequest sampleWorld).world).conditionChanged =
        false ∧
    (Reconcile apiServer 9 background sampleRequest
      (Reconcile apiServer 5 background sampleRequest sampleWorld).world).world =
      (Reconcile apiServer 5 background sampleRequest sampleWorld).world :=
  ⟨by decide, by decide,
    (reconcile_idempotent 5 9 background background sampleRequest sampleWorld sampleSettings
      rfl (by decide)).2.2.1,
    (reconcile_idempotent 5 9 background background sampleRequest sampleWorld sampleSettings
      rfl (by decide)).2.2.2.2.2.2⟩

/-! ## A stale snapshot (claim C9) -/

/-- The modelled server refuses a patch that carries the version of a stale
snapshot: the same patch built with the optimistic lock is answered by a conflict
and writes nothing. -/
theorem patchStatus_lock_conflict :
    patchStatus { Cluster := some "ws1" }
      { sampleSettings with Status := { Conditions := [otherEntry, quotaCondition 5 none] } }
      (MergeFromWithOptimisticLock sampleSettings) (sampleExternalWrite sampleWorld) =
      (some conflict, sampleExternalWrite sampleWorld) := by
  decide

/-- C9, as stated, fails: the object is fetched at version 1, another actor then
writes `[degradedEntry]` (version 2); the one status patch of the invocation is
`MergeFrom` of the stale snapshot, without the optimistic lock; it is applied, no
error is returned, and the stored conditions are those built from the snapshot:
the other actor's write is gone. -/
theorem stale_snapshot_patch_overwrites :
    (sampleExternalWrite sampleWorld).settings =
      [{ sampleSettings with ResourceVersion := 2, Status := { Conditions := [degradedEntry] } }] ∧
    (Reconcile (apiServerWith sampleExternalWrite) 5 background sampleRequest
      sampleWorld).calls.filter Call.isStatusPatch =
      [.StatusPatch { Cluster := some "ws1" }
        { sampleSettings with Status := { Conditions := [otherEntry, quotaCondition 5 none] } }
        (MergeFrom sampleSettings)] ∧
    (MergeFrom sampleSettings).OptimisticLock = false ∧
    (Reconcile (apiServerWith sampleExternalWrite) 5 background sampleRequest sampleWorld).err =
      none ∧
    (Reconcile (apiServerWith sampleExternalWrite) 5 background sampleRequest
      sampleWorld).world.settings =
      [{ sampleSettings with
          ResourceVersion := 3
          Status := { Conditions := [otherEntry, quotaCondition 5 none] } }] := by
  refine ⟨by decide, by decide, by decide, by decide, by decide⟩

/-- A merge that reports a change returns another list than the one it was given. -/
theorem mergeCondition_changed (l : List Condition) (q : Condition)
    (h : (mergeCondition l q).2 = true) : (mergeCondition l q).1 ≠ l := by
  by_cases hd : ∃ e ∈ l, e.Type_ = q.Type_ ∧ (e.Status ≠ q.Status ∨ e.Reason ≠ q.Reason)
  · obtain ⟨-, i, ⟨e, hi, -, hne⟩, hset⟩ := conditionLoop_differs q l true hd
    have hnew : (conditionLoop q l true).2.1 = false := by
      obtain ⟨e, he, het, _⟩ := hd
      exact conditionLoop_new_of_match q l true ⟨e, he, het⟩
    have hlt : i < l.length := by
      by_contra hge
      simp [List.getElem?_eq_none (not_lt.1 hge)] at hi
    have h1 : (mergeCondition l q).1 = l.set i q := by
      simp only [mergeCondition, hnew]
      simpa using hset
    intro heq
    have hq : (l.set i q)[i]? = some q := by simp [hlt]
    rw [← h1, heq, hi] at hq
    cases hq
    rcases hne with hne | hne <;> exact hne rfl
  · have hall : ∀ e ∈ l, e.Type_ = q.Type_ → e.Status = q.Status ∧ e.Reason = q.Reason := by
      intro e he het
      by_contra hne
      exact hd ⟨e, he, het, by tauto⟩
    by_cases hm : ∃ e ∈ l, e.Type_ = q.Type_
    · rw [mergeCondition_all_equal l q hm hall] at h
      cases h
    · have hno : ∀ e ∈ l, e.Type_ ≠ q.Type_ := fun e he het => hm ⟨e, he, het⟩
      intro heq
      have hlen := congrArg List.length heq
      simp [mergeCondition, conditionLoop_no_match q l true hno] at hlen

/-- On the modelled server a patch built by `MergeFrom` is answered by success or
by not-found, never by a conflict, whatever the stored object is. -/
theorem patchStatus_unlocked (ctx : Context) (obj base : Settings) (w : World) :
    (patchStatus ctx obj (MergeFrom base) w).1 = none ∨
      (patchStatus ctx obj (MergeFrom base) w).1 = some notFound := by
  cases hf : w.settings.find?
      (settingsAt (scopeOf ctx) { Namespace := obj.Namespace, Name := obj.Name }) with
  | none => right; simp [patchStatus, hf]
  | some stored =>
    left
    by_cases hst : obj.Status = base.Status <;> simp [patchStatus, hf, MergeFrom, hst]

/-- For every API client: a failure reported for the status patch is returned as
an error, the patch error when the apply succeeded, the apply error otherwise. -/
theorem patch_failure_returned {W : Type} (r : Client W) (now : Time) (ctx : Context)
    (req : Request) (w w1 w2 w3 : W) (allSettings : SettingsList) (s : Settings)
    (operationResult : OperationResult) (rtnErr : Option APIError)
    (hList : r.List ctx w = (.ok allSettings, w1))
    (hGet : r.Get (WithCluster ctx req.ClusterName) req.NamespacedName w1 = (.ok s, w2))
    (hApply : r.CreateOrPatch (WithCluster ctx req.ClusterName) wsQuota mutateQuota w2 =
      ((operationResult, rtnErr), w3))
    (hm : (mergeCondition s.Status.Conditions (quotaCondition now rtnErr)).2 = true)
    (hne : (r.StatusPatch (WithCluster ctx req.ClusterName)
      { s with Status := { Conditions :=
        (mergeCondition s.Status.Conditions (quotaCondition now rtnErr)).1 } }
      (MergeFrom s) w3).1 ≠ none) :
    (Reconcile r now ctx req w).err ≠ none ∧
    (rtnErr = none → (Reconcile r now ctx req w).err =
      (r.StatusPatch (WithCluster ctx req.ClusterName)
        { s with Status := { Conditions :=
          (mergeCondition s.Status.Conditions (quotaCondition now rtnErr)).1 } }
        (MergeFrom s) w3).1) ∧
    (rtnErr ≠ none → (Reconcile r now ctx req w).err = rtnErr) := by
  obtain ⟨-, -, herr, -, -, -, -⟩ :=
    Reconcile_fetched r now ctx req w w1 w2 w3 allSettings s operationResult rtnErr
      hList hGet hApply
  by_cases h : rtnErr = none
  · have he := herr
    simp only [] at he
    rw [if_pos ⟨hm, hne, h⟩] at he
    exact ⟨by rw [he]; exact hne, fun _ => he, fun h1 => absurd h h1⟩
  · have he := herr
    simp only [] at he
    rw [if_neg (fun hc => h hc.2.2)] at he
    exact ⟨by rw [he]; exact h, fun h1 => absurd h1 h, fun _ => he⟩

/-- C9, amended. On the modelled server, for an object that was fetched and
whatever another actor did to the store right after the fetch: the only status
patch of the invocation is `MergeFrom` of the fetched snapshot, built without the
optimistic lock; the invocation never returns a conflict; and when the object is
still stored and the merge reported a change, the invocation returns no error and
the stored object gets the status built from the snapshot, under a new version,
in place of what the other actor left. For every API client, a failure reported
for the status patch is returned as an error: the patch error when the apply
succeeded, the apply error otherwise. -/
theorem status_patch_from_snapshot (now : Time) (ctx : Context) (req : Request) (w : World)
    (ext : World → World) (s : Settings)
    (hGet : (apiGet (WithCluster ctx req.ClusterName) req.NamespacedName w).1 = .ok s) :
    let run := Reconcile (apiServerWith ext) now ctx req w
    let merged := mergeCondition s.Status.Conditions (quotaCondition now none)
    let s1 : Settings := { s with Status := { Conditions := merged.1 } }
    (∀ c ∈ run.calls, c.isStatusPatch = true →
      ∃ patch, c = .StatusPatch (WithCluster ctx req.ClusterName) s1 patch ∧
        patch.base = s ∧ patch.OptimisticLock = false) ∧
    run.err ≠ some conflict ∧
    (∀ stored, (ext w).settings.find? (settingsAt req.ClusterName req.NamespacedName) =
        some stored → merged.2 = true →
      run.err = none ∧
      Call.StatusPatch (WithCluster ctx req.ClusterName) s1 (MergeFrom s) ∈ run.calls ∧
      run.world.settings.find? (settingsAt req.ClusterName req.NamespacedName) =
        some { stored with Status := s1.Status,
                           ResourceVersion := stored.ResourceVersion + 1 }) ∧
    (∀ (W : Type) (r : Client W) (v v1 v2 v3 : W) (allSettings : SettingsList) (t : Settings)
      (operationResult : OperationResult) (rtnErr : Option APIError),
      r.List ctx v = (.ok allSettings, v1) →
      r.Get (WithCluster ctx req.ClusterName) req.NamespacedName v1 = (.ok t, v2) →
      r.CreateOrPatch (WithCluster ctx req.ClusterName) wsQuota mutateQuota v2 =
        ((operationResult, rtnErr), v3) →
      (mergeCondition t.Status.Conditions (quotaCondition now rtnErr)).2 = true →
      (r.StatusPatch (WithCluster ctx req.ClusterName)
        { t with Status := { Conditions :=
          (mergeCondition t.Status.Conditions (quotaCondition now rtnErr)).1 } }
        (MergeFrom t) v3).1 ≠ none →
      (Reconcile r now ctx req v).err ≠ none ∧
      (rtnErr = none → (Reconcile r now ctx req v).err =
        (r.StatusPatch (WithCluster ctx req.ClusterName)
          { t with Status := { Conditions :=
            (mergeCondition t.Status.Conditions (quotaCondition now rtnErr)).1 } }
          (MergeFrom t) v3).1) ∧
      (rtnErr ≠ none → (Reconcile r now ctx req v).err = rtnErr)) := by
  intro run merged s1
  have hs : w.settings.find? (settingsAt req.ClusterName req.NamespacedName) = some s := by
    unfold apiGet at hGet
    rw [scopeOf_WithCluster] at hGet
    cases hf : w.settings.find? (settingsAt req.ClusterName req.NamespacedName) with
    | none => simp [hf] at hGet
    | some s0 =>
      simp only [hf] at hGet
      cases hGet
      rfl
  have hkey : settingsAt req.ClusterName req.NamespacedName s = true := List.find?_some hs
  have hk : ({ Namespace := s.Namespace, Name := s.Name } : NamespacedName) =
      req.NamespacedName := by
    cases hreq : req.NamespacedName with
    | mk ns nm =>
      simp [settingsAt, hreq] at hkey
      simp [hkey]
  obtain ⟨hAe, hAs, -⟩ := applyDesired_converges (WithCluster ctx req.ClusterName) (ext w)
  generalize hA : applyDesired (WithCluster ctx req.ClusterName) wsQuota mutateQuota (ext w) = A
    at hAe hAs
  obtain ⟨⟨op, e⟩, wA⟩ := A
  simp only at hAe hAs
  subst hAe
  have hG : (apiServerWith ext).Get (WithCluster ctx req.ClusterName) req.NamespacedName w =
      (.ok s, ext w) := by
    show ((apiGet (WithCluster ctx req.ClusterName) req.NamespacedName w).1, ext w) = _
    rw [hGet]
  obtain ⟨-, hcalls, herr, hworld, -, -, -⟩ :=
    Reconcile_fetched (apiServerWith ext) now ctx req w w (ext w) wA
      { Items := w.settings } s op none rfl hG hA
  simp only [] at hcalls herr hworld
  refine ⟨?_, ?_, ?_, ?_⟩
  · intro c hc hp
    simp only [run, hcalls] at hc
    cases hm : (mergeCondition s.Status.Conditions (quotaCondition now none)).2 with
    | false =>
      simp [hm] at hc
      rcases hc with rfl | rfl | rfl <;> simp [Call.isStatusPatch] at hp
    | true =>
      simp [hm] at hc
      rcases hc with rfl | rfl | rfl | rfl
      · simp [Call.isStatusPatch] at hp
      · simp [Call.isStatusPatch] at hp
      · simp [Call.isStatusPatch] at hp
      · exact ⟨MergeFrom s, rfl, rfl, rfl⟩
  · simp only [run, herr]
    split_ifs with hc
    · rcases patchStatus_unlocked (WithCluster ctx req.ClusterName)
        { s with Status := { Conditions :=
          (mergeCondition s.Status.Conditions (quotaCondition now none)).1 } } s wA with h | h
      · exact absurd h hc.2.1
      · show (patchStatus _ _ _ _).1 ≠ _
        rw [h]
        decide
    · simp
  · intro stored hstored hm
    have hm1 : (mergeCondition s.Status.Conditions (quotaCondition now none)).2 = true := hm
    have hne : ({ Conditions := (mergeCondition s.Status.Conditions
        (quotaCondition now none)).1 } : SettingsStatus) ≠ s.Status := by
      intro heq
      exact mergeCondition_changed _ _ hm1 (congrArg SettingsStatus.Conditions heq)
    have hfind : wA.settings.find? (settingsAt req.ClusterName req.NamespacedName) =
        some stored := by
      rw [hAs]; exact hstored
    have hskey : settingsAt req.ClusterName req.NamespacedName stored = true :=
      List.find?_some hstored
    have hpatch : patchStatus (WithCluster ctx req.ClusterName)
        { s with Status := { Conditions :=
          (mergeCondition s.Status.Conditions (quotaCondition now none)).1 } }
        (MergeFrom s) wA =
        (none, World.mk (replaceFirst (settingsAt req.ClusterName req.NamespacedName)
          { stored with
            Status := { Conditions :=
              (mergeCondition s.Status.Conditions (quotaCondition now none)).1 }
            ResourceVersion := stored.ResourceVersion + 1 } wA.settings) wA.quotas) := by
      simp only [patchStatus, scopeOf_WithCluster, hk, hfind, MergeFrom]
      simp [hne]
    have hpatch1 : (apiServerWith ext).StatusPatch (WithCluster ctx req.ClusterName)
        { s with Status := { Conditions :=
          (mergeCondition s.Status.Conditions (quotaCondition now none)).1 } }
        (MergeFrom s) wA = _ := hpatch
    refine ⟨?_, ?_, ?_⟩
    · simp only [run, herr, hpatch1]
      simp
    · simp only [run, hcalls, hm1]
      simp [s1, merged]
    · simp only [run, hworld, hm1, if_true, hpatch1]
      apply find_replaceFirst
      · simpa [settingsAt] using hskey
      · exact ⟨stored, List.mem_of_find?_eq_some hfind, hskey⟩
  · intro W r v v1 v2 v3 allSettings t operationResult rtnErr hL hG1 hA1 hm hne
    exact patch_failure_returned r now ctx req v v1 v2 v3 allSettings t operationResult rtnErr
      hL hG1 hA1 hm hne

/-- C9 on `sampleWorld` with the write of another actor after the fetch: no error
is returned and the stored object holds the conditions built from the snapshot,
at version 3. -/
theorem status_patch_from_snapshot_witness :
    (Reconcile (apiServerWith sampleExternalWrite) 5 background sampleRequest sampleWorld).err =
      none ∧
    (Reconcile (apiServerWith sampleExternalWrite) 5 background sampleRequest
      sampleWorld).world.settings.find? (settingsAt "ws1" sampleRequest.NamespacedName) =
      some { sampleSettings with
        Status := { Conditions := [otherEntry, quotaCondition 5 none] }
        ResourceVersion := 3 } :=
  ⟨((status_patch_from_snapshot 5 background sampleRequest sampleWorld sampleExternalWrite
      sampleSettings rfl).2.2.1
      { sampleSettings with ResourceVersion := 2, Status := { Conditions := [degradedEntry] } }
      (by decide) (by decide)).1,
    ((status_patch_from_snapshot 5 background sampleRequest sampleWorld sampleExternalWrite
      sampleSettings rfl).2.2.1
      { sampleSettings with ResourceVersion := 2, Status := { Conditions := [degradedEntry] } }
      (by decide) (by decide)).2.2⟩

end SettingsController
